import Mathlib

/-!
Verification of the indicator pipeline of `mytrader.py` (RSI-adjusted
support/resistance trading advisor).

The pipeline (source lines 95-140) is embedded shallowly:
* a bar sequence is a `List ℚ` of close prices (the only field the core reads);
* a pandas `Series` entry is an `Option ℚ` at each position, `none` standing for
  NaN (warm-up / undefined entries);
* IEEE float special values arising in `rsi_series` are translated to their
  exact effect on the final value: `x / 0 = +inf` for `x > 0` makes the RSI
  expression evaluate to `100`, while `0 / 0 = NaN` makes it undefined;
* `rolling(window=W, min_periods=m)` is embedded by explicit trailing windows:
  pandas computes an aggregate at position `i` over the (at most `W`) window
  slots whenever the number of non-NaN entries among them is at least `m`.
-/

namespace MyTrader

/-- The close price Series `prices["Close"]` read at position `i` (`none` out of range). -/
def closeO (cs : List ℚ) (i : ℕ) : Option ℚ := cs[i]?

/-- Entry `i` of `close.diff()`: NaN (`none`) at position 0, else `close[i] - close[i-1]`. -/
def deltaO (cs : List ℚ) (i : ℕ) : Option ℚ :=
  if 0 < i ∧ i < cs.length then some (cs.getD i 0 - cs.getD (i - 1) 0) else none

/-- Entry `i` of `gain = np.where(delta > 0, delta, 0)`; a NaN delta compares
false against 0, so position 0 yields 0. -/
def gain (cs : List ℚ) (i : ℕ) : ℚ :=
  match deltaO cs i with
  | some d => if 0 < d then d else 0
  | none => 0

/-- Entry `i` of `loss = np.where(delta < 0, -delta, 0)`. -/
def loss (cs : List ℚ) (i : ℕ) : ℚ :=
  match deltaO cs i with
  | some d => if d < 0 then -d else 0
  | none => 0

/-- Indices of the trailing window of `rolling(window=W)` at position `i`:
the last `min W (i+1)` positions ending at `i`. -/
def windowIdx (W i : ℕ) : List ℕ :=
  (List.range (min W (i + 1))).map (fun j => i + 1 - min W (i + 1) + j)

/-- Entry `i` of `rolling(window=P, min_periods=1).mean()` over a total
(NaN-free) series `f`: the mean of the window slots. -/
def avgOf (f : ℕ → ℚ) (P i : ℕ) : ℚ :=
  ((windowIdx P i).map f).sum / ((windowIdx P i).length : ℚ)

/-- Entry `i` of `avg_gain` in `rsi_series`. -/
def avg_gain (cs : List ℚ) (P i : ℕ) : ℚ := avgOf (gain cs) P i

/-- Entry `i` of `avg_loss` in `rsi_series`. -/
def avg_loss (cs : List ℚ) (P i : ℕ) : ℚ := avgOf (loss cs) P i

/-- Entry `i` of `rsi = 100 - (100 / (1 + avg_gain / avg_loss))`.
When `avg_loss > 0` the float expression is ordinary arithmetic; when
`avg_loss = 0` and `avg_gain > 0` the ratio is `+inf` and the expression
evaluates to `100`; when both averages are 0 the ratio is NaN and the entry
is undefined. -/
def rsiO (cs : List ℚ) (P i : ℕ) : Option ℚ :=
  if i < cs.length then
    if 0 < avg_loss cs P i then
      some (100 - 100 / (1 + avg_gain cs P i / avg_loss cs P i))
    else if 0 < avg_gain cs P i then some 100
    else none
  else none

/-- Entry `i` of `RSI_diff = (RSI - 50).abs() / 50`. -/
def rsiDiffO (cs : List ℚ) (P i : ℕ) : Option ℚ :=
  (rsiO cs P i).map (fun r => |r - 50| / 50)

/-- Minimum of a list of rationals (0 for the empty list, unused there). -/
def listMin : List ℚ → ℚ
  | [] => 0
  | a :: l => l.foldl min a

/-- Maximum of a list of rationals (0 for the empty list, unused there). -/
def listMax : List ℚ → ℚ
  | [] => 0
  | a :: l => l.foldl max a

/-- Entry `i` of `rolling(window=W, min_periods=W).agg` over a partial series
`f` of length `n`: defined iff the window has `W` slots, all holding defined
values, in which case `agg` is applied to those values. -/
def rollStrict (n W : ℕ) (f : ℕ → Option ℚ) (agg : List ℚ → ℚ) (i : ℕ) : Option ℚ :=
  if W ≤ i + 1 ∧ i < n ∧ (∀ j ∈ windowIdx W i, (f j).isSome = true) then
    some (agg ((windowIdx W i).map (fun j => (f j).getD 0)))
  else none

/-- `prices["Base_Support"] = prices["Close"].rolling(lookback, min_periods=lookback).min()`. -/
def Base_Support (cs : List ℚ) (L i : ℕ) : Option ℚ :=
  rollStrict cs.length L (closeO cs) listMin i

/-- `prices["Base_Resistance"] = prices["Close"].rolling(lookback, min_periods=lookback).max()`. -/
def Base_Resistance (cs : List ℚ) (L i : ℕ) : Option ℚ :=
  rollStrict cs.length L (closeO cs) listMax i

/-- `prices["Range"] = prices["Base_Resistance"] - prices["Base_Support"]` (NaN-propagating). -/
def RangeO (cs : List ℚ) (L i : ℕ) : Option ℚ :=
  match Base_Resistance cs L i, Base_Support cs L i with
  | some r, some s => some (r - s)
  | _, _ => none

/-- `prices["Adj_Support"] = prices["Base_Support"] - (prices["RSI_diff"] * prices["Range"])`. -/
def Adj_Support (cs : List ℚ) (P L i : ℕ) : Option ℚ :=
  match Base_Support cs L i, rsiDiffO cs P i, RangeO cs L i with
  | some b, some d, some r => some (b - d * r)
  | _, _, _ => none

/-- `prices["Adj_Resistance"] = prices["Base_Resistance"] + (prices["RSI_diff"] * prices["Range"])`. -/
def Adj_Resistance (cs : List ℚ) (P L i : ℕ) : Option ℚ :=
  match Base_Resistance cs L i, rsiDiffO cs P i, RangeO cs L i with
  | some b, some d, some r => some (b + d * r)
  | _, _, _ => none

/-- `prices["Midline"] = (prices["Adj_Support"] + prices["Adj_Resistance"]) / 2`. -/
def Midline (cs : List ℚ) (P L i : ℕ) : Option ℚ :=
  match Adj_Support cs P L i, Adj_Resistance cs P L i with
  | some a, some b => some ((a + b) / 2)
  | _, _ => none

/-- Mean aggregate used by the smoothing `rolling(...).mean()` calls. -/
def meanAgg (l : List ℚ) : ℚ := l.sum / (l.length : ℚ)

/-- `prices["Smooth_Support"] = prices["Adj_Support"].rolling(smoothLength, min_periods=smoothLength).mean()`. -/
def Smooth_Support (cs : List ℚ) (P L S i : ℕ) : Option ℚ :=
  rollStrict cs.length S (Adj_Support cs P L) meanAgg i

/-- `prices["Smooth_Resistance"] = prices["Adj_Resistance"].rolling(smoothLength, min_periods=smoothLength).mean()`. -/
def Smooth_Resistance (cs : List ℚ) (P L S i : ℕ) : Option ℚ :=
  rollStrict cs.length S (Adj_Resistance cs P L) meanAgg i

/-- `prices["Smooth_Midline"] = prices["Midline"].rolling(smoothLength, min_periods=smoothLength).mean()`. -/
def Smooth_Midline (cs : List ℚ) (P L S i : ℕ) : Option ℚ :=
  rollStrict cs.length S (Midline cs P L) meanAgg i

/-- `valid = prices.dropna(subset=["Smooth_Support", "Smooth_Resistance",
"Smooth_Midline", "RSI"])`: the positions kept, in order. -/
def validIdx (cs : List ℚ) (P L S : ℕ) : List ℕ :=
  (List.range cs.length).filter (fun i =>
    (Smooth_Support cs P L S i).isSome && (Smooth_Resistance cs P L S i).isSome &&
    (Smooth_Midline cs P L S i).isSome && (rsiO cs P i).isSome)

/-- Pandas `>` on possibly-NaN scalars: a comparison involving NaN is False. -/
def ogt (a b : Option ℚ) : Bool :=
  match a, b with
  | some x, some y => decide (y < x)
  | _, _ => false

/-- Pandas `<` on possibly-NaN scalars. -/
def olt (a b : Option ℚ) : Bool :=
  match a, b with
  | some x, some y => decide (x < y)
  | _, _ => false

/-- Pandas `<=` on possibly-NaN scalars. -/
def ole (a b : Option ℚ) : Bool :=
  match a, b with
  | some x, some y => decide (x ≤ y)
  | _, _ => false

/-- Pandas `>=` on possibly-NaN scalars. -/
def oge (a b : Option ℚ) : Bool :=
  match a, b with
  | some x, some y => decide (y ≤ x)
  | _, _ => false

/-- `.shift(1)` on the `valid` frame: row `k` reads row `k-1`, NaN at row 0. -/
def shiftRow (v : List ℕ) (k : ℕ) : Option ℕ :=
  if k = 0 then none else v[k - 1]?

/-- Row `k` of `valid["Buy_Signal"] = (valid["Close"] > valid["Smooth_Support"])
& (valid["Close"].shift(1) <= valid["Smooth_Support"].shift(1))
& (valid["RSI"] > valid["RSI"].shift(1))`. -/
def Buy_Signal (cs : List ℚ) (P L S k : ℕ) : Bool :=
  let v := validIdx cs P L S
  ogt ((v[k]?).bind (closeO cs)) ((v[k]?).bind (Smooth_Support cs P L S)) &&
  ole ((shiftRow v k).bind (closeO cs)) ((shiftRow v k).bind (Smooth_Support cs P L S)) &&
  ogt ((v[k]?).bind (rsiO cs P)) ((shiftRow v k).bind (rsiO cs P))

/-- Row `k` of `valid["Sell_Signal"] = (valid["Close"] < valid["Smooth_Resistance"])
& (valid["Close"].shift(1) >= valid["Smooth_Resistance"].shift(1))
& (valid["RSI"] < valid["RSI"].shift(1))`. -/
def Sell_Signal (cs : List ℚ) (P L S k : ℕ) : Bool :=
  let v := validIdx cs P L S
  olt ((v[k]?).bind (closeO cs)) ((v[k]?).bind (Smooth_Resistance cs P L S)) &&
  oge ((shiftRow v k).bind (closeO cs)) ((shiftRow v k).bind (Smooth_Resistance cs P L S)) &&
  olt ((v[k]?).bind (rsiO cs P)) ((shiftRow v k).bind (rsiO cs P))

/-- The state of `latest = valid.iloc[-1]` exposed to the presentation layer. -/
structure Snapshot where
  close : ℚ
  rsi : ℚ
  smoothSup : ℚ
  smoothRes : ℚ
  smoothMid : ℚ
  baseSup : ℚ
  baseRes : ℚ
  range : ℚ
  buy : Bool
  sell : Bool
deriving Repr, DecidableEq

/-- The failures the pipeline can signal (`st.warning` + `st.stop` when the
`valid` frame is empty). -/
inductive TradeError
  | insufficientData
deriving Repr, DecidableEq

/-- The full pipeline of `mytrader.py` lines 95-140, from a close-price list
and the three parameters to the signal columns plus latest-row snapshot; it
stops with an insufficient-data report when `valid` is empty. -/
def pipeline (cs : List ℚ) (P L S : ℕ) :
    Except TradeError (List Bool × List Bool × Snapshot) :=
  let v := validIdx cs P L S
  if v = [] then .error .insufficientData
  else
    let last := v.length - 1
    let i := v.getD last 0
    .ok ((List.range v.length).map (Buy_Signal cs P L S),
         (List.range v.length).map (Sell_Signal cs P L S),
         { close := cs.getD i 0
           rsi := (rsiO cs P i).getD 0
           smoothSup := (Smooth_Support cs P L S i).getD 0
           smoothRes := (Smooth_Resistance cs P L S i).getD 0
           smoothMid := (Smooth_Midline cs P L S i).getD 0
           baseSup := (Base_Support cs L i).getD 0
           baseRes := (Base_Resistance cs L i).getD 0
           range := (RangeO cs L i).getD 0
           buy := Buy_Signal cs P L S last
           sell := Sell_Signal cs P L S last })

/-- True iff the pipeline ran to completion without reporting an error. -/
def pipelineOk (cs : List ℚ) (P L S : ℕ) : Bool :=
  match pipeline cs P L S with
  | .ok _ => true
  | .error _ => false


/-! ### Basic window and definedness lemmas -/

lemma mem_windowIdx {W i j : ℕ} :
    j ∈ windowIdx W i ↔ i + 1 - min W (i + 1) ≤ j ∧ j < i + 1 := by
  unfold windowIdx
  simp only [List.mem_map, List.mem_range]
  constructor
  · rintro ⟨t, ht, rfl⟩; omega
  · intro h; exact ⟨j - (i + 1 - min W (i + 1)), by omega, by omega⟩

lemma windowIdx_length (W i : ℕ) : (windowIdx W i).length = min W (i + 1) := by
  unfold windowIdx; simp

lemma rollStrict_eq_some {n W i : ℕ} {f : ℕ → Option ℚ} {agg : List ℚ → ℚ} {x : ℚ} :
    rollStrict n W f agg i = some x ↔
      (W ≤ i + 1 ∧ i < n ∧ ∀ j ∈ windowIdx W i, (f j).isSome = true) ∧
      x = agg ((windowIdx W i).map (fun j => (f j).getD 0)) := by
  unfold rollStrict
  split
  · rename_i h; simp only [Option.some.injEq]
    exact ⟨fun hx => ⟨h, hx.symm⟩, fun ⟨_, hx⟩ => hx.symm⟩
  · rename_i h; simp only [reduceCtorEq, false_iff]
    intro ⟨h', _⟩; exact h h'

lemma rollStrict_isSome {n W i : ℕ} {f : ℕ → Option ℚ} {agg : List ℚ → ℚ} :
    (rollStrict n W f agg i).isSome = true ↔
      W ≤ i + 1 ∧ i < n ∧ ∀ j ∈ windowIdx W i, (f j).isSome = true := by
  unfold rollStrict
  split
  · rename_i h; simpa using h
  · rename_i h; simpa using h

lemma closeO_isSome {cs : List ℚ} {i : ℕ} : (closeO cs i).isSome = true ↔ i < cs.length := by
  unfold closeO
  constructor
  · intro h
    by_contra hn
    rw [List.getElem?_eq_none (Nat.le_of_not_lt hn)] at h
    simp at h
  · intro h
    rw [List.getElem?_eq_getElem h]
    rfl

lemma closeO_eq_some {cs : List ℚ} {i : ℕ} (h : i < cs.length) :
    closeO cs i = some (cs.getD i 0) := by
  unfold closeO
  rw [List.getElem?_eq_getElem h, List.getD_eq_getElem?_getD, List.getElem?_eq_getElem h]
  rfl

lemma Base_Support_isSome {cs : List ℚ} {L i : ℕ} :
    (Base_Support cs L i).isSome = true ↔ L ≤ i + 1 ∧ i < cs.length := by
  unfold Base_Support
  rw [rollStrict_isSome]
  constructor
  · rintro ⟨h1, h2, _⟩; exact ⟨h1, h2⟩
  · rintro ⟨h1, h2⟩
    refine ⟨h1, h2, fun j hj => ?_⟩
    rw [closeO_isSome]
    have := mem_windowIdx.mp hj
    omega

lemma Base_Resistance_isSome {cs : List ℚ} {L i : ℕ} :
    (Base_Resistance cs L i).isSome = true ↔ L ≤ i + 1 ∧ i < cs.length := by
  unfold Base_Resistance
  rw [rollStrict_isSome]
  constructor
  · rintro ⟨h1, h2, _⟩; exact ⟨h1, h2⟩
  · rintro ⟨h1, h2⟩
    refine ⟨h1, h2, fun j hj => ?_⟩
    rw [closeO_isSome]
    have := mem_windowIdx.mp hj
    omega

/-! ### Min/max fold lemmas for the base channel -/

lemma foldl_min_le (l : List ℚ) (a : ℚ) : l.foldl min a ≤ a := by
  induction l generalizing a with
  | nil => exact le_refl a
  | cons x t ih => exact (ih (min a x)).trans (min_le_left a x)

lemma le_foldl_max (l : List ℚ) (a : ℚ) : a ≤ l.foldl max a := by
  induction l generalizing a with
  | nil => exact le_refl a
  | cons x t ih => exact (le_max_left a x).trans (ih (max a x))

lemma listMin_le_listMax (l : List ℚ) : listMin l ≤ listMax l := by
  cases l with
  | nil => exact le_refl 0
  | cons a t => exact (foldl_min_le t a).trans (le_foldl_max t a)

lemma base_sup_le_base_res {cs : List ℚ} {L i : ℕ} {s r : ℚ}
    (hs : Base_Support cs L i = some s) (hr : Base_Resistance cs L i = some r) :
    s ≤ r := by
  unfold Base_Support at hs
  unfold Base_Resistance at hr
  obtain ⟨_, hs'⟩ := rollStrict_eq_some.mp hs
  obtain ⟨_, hr'⟩ := rollStrict_eq_some.mp hr
  rw [hs', hr']
  exact listMin_le_listMax _

/-! ### Nonnegativity of the gain/loss averages and RSI range facts -/

lemma gain_nonneg (cs : List ℚ) (i : ℕ) : 0 ≤ gain cs i := by
  unfold gain
  cases deltaO cs i with
  | none => exact le_refl 0
  | some d =>
    by_cases h : 0 < d
    · simp [h]; exact le_of_lt h
    · simp [h]

lemma loss_nonneg (cs : List ℚ) (i : ℕ) : 0 ≤ loss cs i := by
  unfold loss
  cases deltaO cs i with
  | none => exact le_refl 0
  | some d =>
    by_cases h : d < 0
    · simp [h]; linarith
    · simp [h]

lemma avgOf_nonneg {f : ℕ → ℚ} (hf : ∀ j, 0 ≤ f j) (P i : ℕ) : 0 ≤ avgOf f P i := by
  unfold avgOf
  apply div_nonneg
  · exact List.sum_nonneg (by
      intro x hx
      obtain ⟨j, _, rfl⟩ := List.mem_map.mp hx
      exact hf j)
  · exact Nat.cast_nonneg _

lemma avg_gain_nonneg (cs : List ℚ) (P i : ℕ) : 0 ≤ avg_gain cs P i :=
  avgOf_nonneg (gain_nonneg cs) P i

lemma avg_loss_nonneg (cs : List ℚ) (P i : ℕ) : 0 ≤ avg_loss cs P i :=
  avgOf_nonneg (loss_nonneg cs) P i

/-! ### RSI deviation and adjusted-channel lemmas -/

lemma rsiDiffO_isSome {cs : List ℚ} {P i : ℕ} :
    (rsiDiffO cs P i).isSome = (rsiO cs P i).isSome := by
  unfold rsiDiffO
  cases rsiO cs P i <;> rfl

lemma rsiDiffO_nonneg {cs : List ℚ} {P i : ℕ} {d : ℚ} (h : rsiDiffO cs P i = some d) :
    0 ≤ d := by
  unfold rsiDiffO at h
  cases hr : rsiO cs P i with
  | none => rw [hr] at h; simp at h
  | some r =>
    rw [hr] at h
    simp only [Option.map_some', Option.some.injEq] at h
    rw [← h]
    positivity

lemma RangeO_eq_some {cs : List ℚ} {L i : ℕ} {s r : ℚ}
    (hs : Base_Support cs L i = some s) (hr : Base_Resistance cs L i = some r) :
    RangeO cs L i = some (r - s) := by
  unfold RangeO
  rw [hs, hr]

lemma Adj_eq_some {cs : List ℚ} {P L i : ℕ} {s r d : ℚ}
    (hs : Base_Support cs L i = some s) (hr : Base_Resistance cs L i = some r)
    (hd : rsiDiffO cs P i = some d) :
    Adj_Support cs P L i = some (s - d * (r - s)) ∧
    Adj_Resistance cs P L i = some (r + d * (r - s)) ∧
    Midline cs P L i = some ((s - d * (r - s) + (r + d * (r - s))) / 2) := by
  have hrg := RangeO_eq_some hs hr
  refine ⟨?_, ?_, ?_⟩
  · unfold Adj_Support; rw [hs, hd, hrg]
  · unfold Adj_Resistance; rw [hr, hd, hrg]
  · unfold Midline Adj_Support Adj_Resistance; rw [hs, hr, hd, hrg]

/-- Core ordering of the adjusted channel, from the definedness of its parts. -/
lemma adj_mid_order {cs : List ℚ} {P L i : ℕ} {a m r : ℚ}
    (ha : Adj_Support cs P L i = some a) (hm : Midline cs P L i = some m)
    (hr : Adj_Resistance cs P L i = some r) :
    a ≤ m ∧ m ≤ r := by
  unfold Adj_Support at ha
  unfold Adj_Resistance at hr
  cases hbs : Base_Support cs L i with
  | none => rw [hbs] at ha; simp at ha
  | some bs =>
  cases hbr : Base_Resistance cs L i with
  | none => rw [hbr] at hr; simp at hr
  | some br =>
  cases hd : rsiDiffO cs P i with
  | none => rw [hbs, hd] at ha; simp at ha
  | some d =>
  obtain ⟨ha', hr', hm'⟩ := Adj_eq_some hbs hbr hd
  unfold Adj_Support at ha'
  unfold Adj_Resistance at hr'
  rw [ha'] at ha
  rw [hr'] at hr
  rw [hm'] at hm
  obtain rfl := Option.some.inj ha
  obtain rfl := Option.some.inj hr
  obtain rfl := Option.some.inj hm
  have hd0 : 0 ≤ d := rsiDiffO_nonneg hd
  have hsr : bs ≤ br := base_sup_le_base_res hbs hbr
  have hprod : 0 ≤ d * (br - bs) := mul_nonneg hd0 (by linarith)
  constructor <;> [linarith; linarith]

/-! ### Definedness of the adjusted channel and smoothed Series -/

lemma Adj_Support_isSome {cs : List ℚ} {P L i : ℕ} :
    (Adj_Support cs P L i).isSome = true ↔
      L ≤ i + 1 ∧ i < cs.length ∧ (rsiO cs P i).isSome = true := by
  unfold Adj_Support RangeO
  constructor
  · intro h
    cases hbs : Base_Support cs L i with
    | none => rw [hbs] at h; simp at h
    | some bs =>
      cases hd : rsiDiffO cs P i with
      | none => rw [hbs, hd] at h; simp at h
      | some d =>
        have h1 := Base_Support_isSome.mp (by rw [hbs]; rfl)
        have h2 : (rsiO cs P i).isSome = true := by
          rw [← rsiDiffO_isSome, hd]; rfl
        exact ⟨h1.1, h1.2, h2⟩
  · rintro ⟨h1, h2, h3⟩
    obtain ⟨bs, hbs⟩ := Option.isSome_iff_exists.mp (Base_Support_isSome.mpr ⟨h1, h2⟩)
    obtain ⟨br, hbr⟩ := Option.isSome_iff_exists.mp (Base_Resistance_isSome.mpr ⟨h1, h2⟩)
    obtain ⟨d, hd⟩ := Option.isSome_iff_exists.mp (by rw [rsiDiffO_isSome]; exact h3)
    rw [hbs, hbr, hd]
    rfl

lemma Adj_Resistance_isSome {cs : List ℚ} {P L i : ℕ} :
    (Adj_Resistance cs P L i).isSome = true ↔
      L ≤ i + 1 ∧ i < cs.length ∧ (rsiO cs P i).isSome = true := by
  unfold Adj_Resistance RangeO
  constructor
  · intro h
    cases hbr : Base_Resistance cs L i with
    | none => rw [hbr] at h; simp at h
    | some br =>
      cases hd : rsiDiffO cs P i with
      | none => rw [hbr, hd] at h; simp at h
      | some d =>
        have h1 := Base_Resistance_isSome.mp (by rw [hbr]; rfl)
        have h2 : (rsiO cs P i).isSome = true := by
          rw [← rsiDiffO_isSome, hd]; rfl
        exact ⟨h1.1, h1.2, h2⟩
  · rintro ⟨h1, h2, h3⟩
    obtain ⟨bs, hbs⟩ := Option.isSome_iff_exists.mp (Base_Support_isSome.mpr ⟨h1, h2⟩)
    obtain ⟨br, hbr⟩ := Option.isSome_iff_exists.mp (Base_Resistance_isSome.mpr ⟨h1, h2⟩)
    obtain ⟨d, hd⟩ := Option.isSome_iff_exists.mp (by rw [rsiDiffO_isSome]; exact h3)
    rw [hbs, hbr, hd]
    rfl

lemma Midline_isSome {cs : List ℚ} {P L i : ℕ} :
    (Midline cs P L i).isSome = true ↔
      L ≤ i + 1 ∧ i < cs.length ∧ (rsiO cs P i).isSome = true := by
  unfold Midline
  constructor
  · intro h
    cases ha : Adj_Support cs P L i with
    | none => rw [ha] at h; simp at h
    | some a =>
      exact Adj_Support_isSome.mp (by rw [ha]; rfl)
  · intro hc
    obtain ⟨a, ha⟩ := Option.isSome_iff_exists.mp (Adj_Support_isSome.mpr hc)
    obtain ⟨b, hb⟩ := Option.isSome_iff_exists.mp (Adj_Resistance_isSome.mpr hc)
    rw [ha, hb]
    rfl

lemma forall_window_ge {W i L : ℕ} (hW : 1 ≤ W) :
    (∀ j ∈ windowIdx W i, L ≤ j + 1) ↔ L ≤ i + 1 - min W (i + 1) + 1 := by
  constructor
  · intro h
    exact h (i + 1 - min W (i + 1)) (mem_windowIdx.mpr (by omega))
  · intro h j hj
    have := mem_windowIdx.mp hj
    omega

/-- Definedness of a strict rolling mean over a series whose definedness is
exactly the region from position `L-1` on. -/
lemma roll_over_adj_isSome {cs : List ℚ} {P L S i : ℕ} {g : ℕ → Option ℚ}
    (hg : ∀ j, (g j).isSome = true ↔
      (L ≤ j + 1 ∧ j < cs.length ∧ (rsiO cs P j).isSome = true))
    (hL : 1 ≤ L) (hS : 1 ≤ S)
    (hrsi : ∀ j, j < cs.length → L ≤ j + 1 → (rsiO cs P j).isSome = true)
    (hi : i < cs.length) :
    (rollStrict cs.length S g meanAgg i).isSome = true ↔ L + S ≤ i + 2 := by
  rw [rollStrict_isSome]
  have hwin : ∀ j ∈ windowIdx S i, j < cs.length := by
    intro j hj
    have := mem_windowIdx.mp hj
    omega
  constructor
  · rintro ⟨h1, _, h3⟩
    have h4 : ∀ j ∈ windowIdx S i, L ≤ j + 1 := by
      intro j hj
      exact ((hg j).mp (h3 j hj)).1
    have h5 := (forall_window_ge hS).mp h4
    omega
  · intro h
    have hSi : S ≤ i + 1 := by omega
    refine ⟨hSi, hi, fun j hj => ?_⟩
    have hji := mem_windowIdx.mp hj
    have hLj : L ≤ j + 1 := by omega
    exact (hg j).mpr ⟨hLj, by omega, hrsi j (by omega) hLj⟩

lemma mem_validIdx {cs : List ℚ} {P L S i : ℕ} :
    i ∈ validIdx cs P L S ↔
      i < cs.length ∧ (Smooth_Support cs P L S i).isSome = true ∧
      (Smooth_Resistance cs P L S i).isSome = true ∧
      (Smooth_Midline cs P L S i).isSome = true ∧ (rsiO cs P i).isSome = true := by
  unfold validIdx
  rw [List.mem_filter, List.mem_range]
  simp [Bool.and_eq_true, and_assoc]

/-! ### Monotonicity of the smoothing mean -/

lemma meanAgg_le_meanAgg {l₁ l₂ : List ℚ} (hlen : l₁.length = l₂.length)
    (hsum : l₁.sum ≤ l₂.sum) : meanAgg l₁ ≤ meanAgg l₂ := by
  unfold meanAgg
  rw [hlen]
  exact div_le_div_of_nonneg_right hsum (Nat.cast_nonneg _)

/-! ### Small simp lemmas for the NaN comparison combinators -/

lemma ole_none_left (b : Option ℚ) : ole none b = false := by cases b <;> rfl

lemma oge_none_left (b : Option ℚ) : oge none b = false := by cases b <;> rfl

/-! ### Claim theorems -/

section ClaimTheorems

attribute [local semireducible] Rat.add Rat.mul Rat.inv Rat.sub

/-- C3: for every close-price series and every period `P ≥ 2`, every defined
value of the oscillator series lies in `[0, 100]` inclusive. -/
theorem rsi_range_bound (cs : List ℚ) (P i : ℕ) (x : ℚ) (hP : 2 ≤ P)
    (hx : rsiO cs P i = some x) : 0 ≤ x ∧ x ≤ 100 := by
  unfold rsiO at hx
  by_cases hi : i < cs.length
  · rw [if_pos hi] at hx
    by_cases hl : 0 < avg_loss cs P i
    · rw [if_pos hl] at hx
      obtain rfl := Option.some.inj hx
      have hg : 0 ≤ avg_gain cs P i := avg_gain_nonneg cs P i
      have hq : 0 ≤ avg_gain cs P i / avg_loss cs P i := div_nonneg hg (le_of_lt hl)
      have h0 : (0:ℚ) < 1 + avg_gain cs P i / avg_loss cs P i := by linarith
      have hle : 100 / (1 + avg_gain cs P i / avg_loss cs P i) ≤ 100 := by
        rw [div_le_iff₀ h0]; nlinarith
      have hpos : 0 < 100 / (1 + avg_gain cs P i / avg_loss cs P i) := by positivity
      constructor <;> linarith
    · rw [if_neg hl] at hx
      by_cases hgp : 0 < avg_gain cs P i
      · rw [if_pos hgp] at hx
        obtain rfl := Option.some.inj hx
        norm_num
      · rw [if_neg hgp] at hx
        exact absurd hx (by simp)
  · rw [if_neg hi] at hx
    exact absurd hx (by simp)

theorem rsi_range_bound_witness :
    (2 ≤ 2 ∧ rsiO [1, 2] 2 1 = some 100) ∧ (0 ≤ (100:ℚ) ∧ (100:ℚ) ≤ 100) :=
  ⟨⟨by decide, by decide⟩, rsi_range_bound [1, 2] 2 1 100 (by decide) (by decide)⟩

/-- C2 counterexample: for 100 identical closes the trailing average loss at
position 1 is 0, yet the oscillator there is undefined (NaN from `0/0`), not
100 — refuting the claim that a zero average loss always yields a defined
value of 100. -/
theorem rsi_zero_loss_undefined_cex :
    avg_loss (List.replicate 100 (5:ℚ)) 14 1 = 0 ∧
    rsiO (List.replicate 100 (5:ℚ)) 14 1 = none := by decide

/-- C2 amended: whenever the trailing average loss is 0 at an in-range
position, the oscillator is 100 if the trailing average gain is positive, and
undefined if the average gain is 0 as well (`0/0` is NaN); in particular, for
a series of identical closes the oscillator is undefined at every position. -/
theorem rsi_avg_loss_zero (cs : List ℚ) (P i : ℕ) (hi : i < cs.length)
    (hl : avg_loss cs P i = 0) :
    (0 < avg_gain cs P i → rsiO cs P i = some 100) ∧
    (avg_gain cs P i = 0 → rsiO cs P i = none) ∧
    (∀ q : ℚ, ∀ n j : ℕ, rsiO (List.replicate n q) P j = none) := by
  refine ⟨?_, ?_, ?_⟩
  · intro hg
    unfold rsiO
    rw [if_pos hi, hl, if_neg (lt_irrefl 0), if_pos hg]
  · intro hg
    unfold rsiO
    rw [if_pos hi, hl, hg, if_neg (lt_irrefl 0), if_neg (lt_irrefl 0)]
  · intro q n j
    have hdelta : ∀ t, deltaO (List.replicate n q) t = none ∨
        deltaO (List.replicate n q) t = some 0 := by
      intro t
      unfold deltaO
      by_cases ht : 0 < t ∧ t < (List.replicate n q).length
      · right
        rw [if_pos ht]
        have h1 : (List.replicate n q).getD t 0 = q := by
          rw [List.getD_eq_getElem?_getD, List.getElem?_replicate, if_pos (by simpa using ht.2)]
          rfl
        have h2 : (List.replicate n q).getD (t - 1) 0 = q := by
          rw [List.getD_eq_getElem?_getD, List.getElem?_replicate,
            if_pos (by have := ht.2; simp at this ⊢; omega)]
          rfl
        rw [h1, h2]
        norm_num
      · left
        rw [if_neg ht]
    have hgain : ∀ t, gain (List.replicate n q) t = 0 := by
      intro t
      unfold gain
      rcases hdelta t with h | h <;> rw [h] <;> norm_num
    have hloss : ∀ t, loss (List.replicate n q) t = 0 := by
      intro t
      unfold loss
      rcases hdelta t with h | h <;> rw [h] <;> norm_num
    have hag : avg_gain (List.replicate n q) P j = 0 := by
      unfold avg_gain avgOf
      rw [List.sum_eq_zero, zero_div]
      intro x hx
      obtain ⟨t, _, rfl⟩ := List.mem_map.mp hx
      exact hgain t
    have hal : avg_loss (List.replicate n q) P j = 0 := by
      unfold avg_loss avgOf
      rw [List.sum_eq_zero, zero_div]
      intro x hx
      obtain ⟨t, _, rfl⟩ := List.mem_map.mp hx
      exact hloss t
    unfold rsiO
    rw [hag, hal]
    by_cases hj : j < (List.replicate n q).length
    · rw [if_pos hj, if_neg (lt_irrefl 0), if_neg (lt_irrefl 0)]
    · rw [if_neg hj]

theorem rsi_avg_loss_zero_witness :
    (1 < ([1, 2] : List ℚ).length ∧ avg_loss [1, 2] 2 1 = 0 ∧ 0 < avg_gain ([1, 2] : List ℚ) 2 1) ∧
    rsiO [1, 2] 2 1 = some 100 :=
  ⟨⟨by decide, by decide, by decide⟩,
   (rsi_avg_loss_zero [1, 2] 2 1 (by decide) (by decide)).1 (by decide)⟩

/-- C10: wherever base support, base resistance and the oscillator deviation
are all defined, the adjusted channel contains the base channel:
adjusted support ≤ base support ≤ base resistance ≤ adjusted resistance. -/
theorem adjusted_channel_contains_base (cs : List ℚ) (P L i : ℕ) (bs br d : ℚ)
    (hs : Base_Support cs L i = some bs) (hr : Base_Resistance cs L i = some br)
    (hd : rsiDiffO cs P i = some d) :
    ∃ a r, Adj_Support cs P L i = some a ∧ Adj_Resistance cs P L i = some r ∧
      a ≤ bs ∧ bs ≤ br ∧ br ≤ r := by
  obtain ⟨ha, hr', _⟩ := Adj_eq_some hs hr hd
  have hd0 : 0 ≤ d := rsiDiffO_nonneg hd
  have hsr : bs ≤ br := base_sup_le_base_res hs hr
  have hprod : 0 ≤ d * (br - bs) := mul_nonneg hd0 (by linarith)
  exact ⟨_, _, ha, hr', by linarith, hsr, by linarith⟩

theorem adjusted_channel_contains_base_witness :
    (Base_Support ([1, 2, 4] : List ℚ) 2 2 = some 2 ∧
     Base_Resistance ([1, 2, 4] : List ℚ) 2 2 = some 4 ∧
     rsiDiffO ([1, 2, 4] : List ℚ) 2 2 = some 1) ∧
    (∃ a r, Adj_Support ([1, 2, 4] : List ℚ) 2 2 2 = some a ∧
      Adj_Resistance ([1, 2, 4] : List ℚ) 2 2 2 = some r ∧
      a ≤ 2 ∧ (2:ℚ) ≤ 4 ∧ 4 ≤ r) :=
  ⟨⟨by decide, by decide, by decide⟩,
   adjusted_channel_contains_base [1, 2, 4] 2 2 2 2 4 1 (by decide) (by decide) (by decide)⟩

/-- C5: at every position where support, midline and resistance are all
defined — both for the adjusted channel and for the smoothed channel —
support ≤ midline ≤ resistance. -/
theorem channel_ordering (cs : List ℚ) (P L S i : ℕ) :
    (∀ a m r : ℚ, Adj_Support cs P L i = some a → Midline cs P L i = some m →
      Adj_Resistance cs P L i = some r → a ≤ m ∧ m ≤ r) ∧
    (∀ a m r : ℚ, Smooth_Support cs P L S i = some a →
      Smooth_Midline cs P L S i = some m →
      Smooth_Resistance cs P L S i = some r → a ≤ m ∧ m ≤ r) := by
  constructor
  · intro a m r ha hm hr
    exact adj_mid_order ha hm hr
  · intro a m r ha hm hr
    unfold Smooth_Support at ha
    unfold Smooth_Midline at hm
    unfold Smooth_Resistance at hr
    obtain ⟨⟨_, _, hA⟩, ha'⟩ := rollStrict_eq_some.mp ha
    obtain ⟨⟨_, _, hM⟩, hm'⟩ := rollStrict_eq_some.mp hm
    obtain ⟨⟨_, _, hR⟩, hr'⟩ := rollStrict_eq_some.mp hr
    subst ha' hm' hr'
    constructor
    · apply meanAgg_le_meanAgg (by simp)
      apply List.sum_le_sum
      intro j hj
      obtain ⟨aj, haj⟩ := Option.isSome_iff_exists.mp (hA j hj)
      obtain ⟨mj, hmj⟩ := Option.isSome_iff_exists.mp (hM j hj)
      obtain ⟨rj, hrj⟩ := Option.isSome_iff_exists.mp (hR j hj)
      rw [haj, hmj]
      simpa using (adj_mid_order haj hmj hrj).1
    · apply meanAgg_le_meanAgg (by simp)
      apply List.sum_le_sum
      intro j hj
      obtain ⟨aj, haj⟩ := Option.isSome_iff_exists.mp (hA j hj)
      obtain ⟨mj, hmj⟩ := Option.isSome_iff_exists.mp (hM j hj)
      obtain ⟨rj, hrj⟩ := Option.isSome_iff_exists.mp (hR j hj)
      rw [hmj, hrj]
      simpa using (adj_mid_order haj hmj hrj).2

theorem channel_ordering_witness :
    ((1:ℚ) ≤ 5/2 ∧ (5/2:ℚ) ≤ 4) ∧ ((1:ℚ) ≤ 5/2 ∧ (5/2:ℚ) ≤ 4) :=
  ⟨(channel_ordering [1, 2, 3, 4, 5] 2 2 1 2).1 1 (5/2) 4
      (by decide) (by decide) (by decide),
   (channel_ordering [1, 2, 3, 4, 5] 2 2 1 2).2 1 (5/2) 4
      (by decide) (by decide) (by decide)⟩

/-- C8: the first position of the valid region carries neither a buy signal
nor a sell signal (the shifted comparisons read NaN there and are False). -/
theorem first_valid_row_no_signal (cs : List ℚ) (P L S : ℕ)
    (h : validIdx cs P L S ≠ []) :
    Buy_Signal cs P L S 0 = false ∧ Sell_Signal cs P L S 0 = false := by
  unfold Buy_Signal Sell_Signal shiftRow
  simp [ole_none_left, oge_none_left]

theorem first_valid_row_no_signal_witness :
    (validIdx ([1, 2, 3, 4, 5] : List ℚ) 2 2 1 ≠ []) ∧
    (Buy_Signal ([1, 2, 3, 4, 5] : List ℚ) 2 2 1 0 = false ∧
     Sell_Signal ([1, 2, 3, 4, 5] : List ℚ) 2 2 1 0 = false) :=
  ⟨by decide, first_valid_row_no_signal [1, 2, 3, 4, 5] 2 2 1 (by decide)⟩

/-- C6: if the valid region is empty the pipeline stops with the
insufficient-data report, producing no signal columns and no snapshot. -/
theorem empty_valid_region_errors (cs : List ℚ) (P L S : ℕ)
    (h : validIdx cs P L S = []) :
    pipeline cs P L S = Except.error TradeError.insufficientData := by
  simp [pipeline, h]

theorem empty_valid_region_errors_witness :
    (validIdx ([10, 11, 12] : List ℚ) 14 50 5 = []) ∧
    pipeline ([10, 11, 12] : List ℚ) 14 50 5 =
      Except.error TradeError.insufficientData :=
  ⟨by decide, empty_valid_region_errors [10, 11, 12] 14 50 5 (by decide)⟩

/-- C7 counterexample: with `rsiPeriod = 1` — outside the valid domain
`rsiPeriod ≥ 2` — the pipeline does not raise any error: on five increasing
closes it runs to completion and produces a snapshot, refuting the claim
that out-of-domain parameters raise `InvalidParameterError` before any
computation starts. -/
theorem no_invalid_parameter_error_cex :
    pipelineOk ([1, 2, 3, 4, 5] : List ℚ) 1 2 1 = true := by decide

/-- C7 amended: the pipeline performs no parameter validation at all; the
only failure it can ever report, for any parameter values, is the
insufficient-data error raised when the valid region is empty. Out-of-domain
parameters (e.g. `rsiPeriod = 1`) are simply computed with (the UI input
widgets, outside the core, are what clamp parameters to their domains). -/
theorem pipeline_error_only_insufficient_data (cs : List ℚ) (P L S : ℕ)
    (e : TradeError) (h : pipeline cs P L S = Except.error e) :
    e = TradeError.insufficientData ∧ validIdx cs P L S = [] := by
  by_cases hv : validIdx cs P L S = []
  · have he : pipeline cs P L S = Except.error TradeError.insufficientData := by
      simp [pipeline, hv]
    exact ⟨(Except.error.inj (he.symm.trans h)).symm, hv⟩
  · simp [pipeline, hv] at h

theorem pipeline_error_only_insufficient_data_witness :
    (pipeline ([] : List ℚ) 1 1 1 = Except.error TradeError.insufficientData) ∧
    (TradeError.insufficientData = TradeError.insufficientData ∧
     validIdx ([] : List ℚ) 1 1 1 = []) :=
  ⟨rfl, pipeline_error_only_insufficient_data [] 1 1 1 TradeError.insufficientData rfl⟩

/-- C4 counterexample: on six identical closes with lookback 2 and smoothing
length 1 the claim puts the first defined smoothed position at
`L + S - 2 = 1`; base support is indeed defined there, but the smoothed
support is undefined, because the oscillator (hence the adjusted channel) is
NaN on a flat series — refuting the claimed warm-up formula for the smoothed
Series. -/
theorem warmup_smoothed_cex :
    (Base_Support (List.replicate 6 (5:ℚ)) 2 1).isSome = true ∧
    Smooth_Support (List.replicate 6 (5:ℚ)) 2 2 1 1 = none := by decide

/-- C4 amended: base support and resistance are undefined at positions
`0 .. L-2` and defined from position `L-1` onward; the smoothed Series are
undefined for an additional `S-1` positions and defined from position
`L+S-2` onward provided the oscillator is defined at every position from
`L-1` on (on inputs whose delta window goes flat, such as constant closes,
the smoothed Series can be undefined arbitrarily late). -/
theorem warmup_lengths (cs : List ℚ) (P L S i : ℕ) (hL : 1 ≤ L) (hS : 1 ≤ S)
    (hi : i < cs.length) :
    ((Base_Support cs L i).isSome = true ↔ L ≤ i + 1) ∧
    ((Base_Resistance cs L i).isSome = true ↔ L ≤ i + 1) ∧
    ((∀ j, j < cs.length → L ≤ j + 1 → (rsiO cs P j).isSome = true) →
      (((Smooth_Support cs P L S i).isSome = true ↔ L + S ≤ i + 2) ∧
       ((Smooth_Resistance cs P L S i).isSome = true ↔ L + S ≤ i + 2) ∧
       ((Smooth_Midline cs P L S i).isSome = true ↔ L + S ≤ i + 2))) := by
  refine ⟨?_, ?_, ?_⟩
  · rw [Base_Support_isSome]
    exact ⟨fun h => h.1, fun h => ⟨h, hi⟩⟩
  · rw [Base_Resistance_isSome]
    exact ⟨fun h => h.1, fun h => ⟨h, hi⟩⟩
  · intro hrsi
    refine ⟨?_, ?_, ?_⟩
    · unfold Smooth_Support
      exact roll_over_adj_isSome (fun t => Adj_Support_isSome) hL hS hrsi hi
    · unfold Smooth_Resistance
      exact roll_over_adj_isSome (fun t => Adj_Resistance_isSome) hL hS hrsi hi
    · unfold Smooth_Midline
      exact roll_over_adj_isSome (fun t => Midline_isSome) hL hS hrsi hi

theorem warmup_lengths_witness :
    (Base_Support ([1, 2, 3, 4, 5] : List ℚ) 2 2).isSome = true ∧
    (Smooth_Support ([1, 2, 3, 4, 5] : List ℚ) 2 2 2 2).isSome = true := by
  have hrsi : ∀ j, j < ([1, 2, 3, 4, 5] : List ℚ).length → 2 ≤ j + 1 →
      (rsiO ([1, 2, 3, 4, 5] : List ℚ) 2 j).isSome = true := by
    intro j hj
    have hj5 : j < 5 := by simpa using hj
    interval_cases j <;> decide
  have h := warmup_lengths ([1, 2, 3, 4, 5] : List ℚ) 2 2 2 2
    (by decide) (by decide) (by decide)
  exact ⟨h.1.mpr (by decide), ((h.2.2 hrsi).1).mpr (by decide)⟩

/-- C9 counterexample: for closes `[1,1,1,1,2,2,2,2,2,2]` with `P = 2`,
`L = 5`, `S = 1`, position 5 belongs to the valid region but position 6 does
not (the two-bar delta window is flat from position 6 on, so the oscillator
goes undefined again) — the set of defined positions is not a trailing
sub-sequence. -/
theorem valid_region_not_trailing_cex :
    5 ∈ validIdx ([1, 1, 1, 1, 2, 2, 2, 2, 2, 2] : List ℚ) 2 5 1 ∧
    5 ≤ 6 ∧ 6 < ([1, 1, 1, 1, 2, 2, 2, 2, 2, 2] : List ℚ).length ∧
    6 ∉ validIdx ([1, 1, 1, 1, 2, 2, 2, 2, 2, 2] : List ℚ) 2 5 1 := by decide

/-- C9 amended: the valid region is a contiguous trailing sub-sequence of
the bar sequence provided the oscillator is defined at every position from
`L-1` on; without that proviso a defined position can be followed by an
undefined one. -/
theorem valid_region_trailing (cs : List ℚ) (P L S : ℕ) (hL : 1 ≤ L) (hS : 1 ≤ S)
    (hrsi : ∀ j, j < cs.length → L ≤ j + 1 → (rsiO cs P j).isSome = true)
    (i : ℕ) (hi : i ∈ validIdx cs P L S) (j : ℕ) (hij : i ≤ j)
    (hj : j < cs.length) :
    j ∈ validIdx cs P L S := by
  rw [mem_validIdx] at hi ⊢
  obtain ⟨hin, hsup, _, _, _⟩ := hi
  have hchar : L + S ≤ i + 2 := by
    have := roll_over_adj_isSome (fun t => Adj_Support_isSome) hL hS hrsi hin
    unfold Smooth_Support at hsup
    exact this.mp hsup
  refine ⟨hj, ?_, ?_, ?_, ?_⟩
  · unfold Smooth_Support
    exact (roll_over_adj_isSome (fun t => Adj_Support_isSome) hL hS hrsi hj).mpr
      (by omega)
  · unfold Smooth_Resistance
    exact (roll_over_adj_isSome (fun t => Adj_Resistance_isSome) hL hS hrsi hj).mpr
      (by omega)
  · unfold Smooth_Midline
    exact (roll_over_adj_isSome (fun t => Midline_isSome) hL hS hrsi hj).mpr
      (by omega)
  · exact hrsi j hj (by omega)

theorem valid_region_trailing_witness :
    3 ∈ validIdx ([1, 2, 3, 4, 5] : List ℚ) 2 2 1 := by
  have hrsi : ∀ j, j < ([1, 2, 3, 4, 5] : List ℚ).length → 2 ≤ j + 1 →
      (rsiO ([1, 2, 3, 4, 5] : List ℚ) 2 j).isSome = true := by
    intro j hj
    have hj5 : j < 5 := by simpa using hj
    interval_cases j <;> decide
  exact valid_region_trailing [1, 2, 3, 4, 5] 2 2 1 (by decide) (by decide) hrsi
    1 (by decide) 3 (by decide) (by decide)

/-- C1: for every position of the valid region after the first (row `k+1`,
with previous valid row `k`), the buy flag holds iff the close exceeds the
smoothed support there, the previous valid close was at or below the
previous smoothed support, and the oscillator strictly rose between the two
rows; the sell flag holds iff, symmetrically, the close is below the
smoothed resistance, the previous close was at or above the previous
smoothed resistance, and the oscillator strictly fell. -/
theorem signal_characterization (cs : List ℚ) (P L S k : ℕ)
    (h : k + 1 < (validIdx cs P L S).length) :
    (Buy_Signal cs P L S (k + 1) = true ↔
      ((Smooth_Support cs P L S ((validIdx cs P L S).getD (k + 1) 0)).getD 0 <
          cs.getD ((validIdx cs P L S).getD (k + 1) 0) 0 ∧
        cs.getD ((validIdx cs P L S).getD k 0) 0 ≤
          (Smooth_Support cs P L S ((validIdx cs P L S).getD k 0)).getD 0 ∧
        (rsiO cs P ((validIdx cs P L S).getD k 0)).getD 0 <
          (rsiO cs P ((validIdx cs P L S).getD (k + 1) 0)).getD 0)) ∧
    (Sell_Signal cs P L S (k + 1) = true ↔
      (cs.getD ((validIdx cs P L S).getD (k + 1) 0) 0 <
          (Smooth_Resistance cs P L S ((validIdx cs P L S).getD (k + 1) 0)).getD 0 ∧
        (Smooth_Resistance cs P L S ((validIdx cs P L S).getD k 0)).getD 0 ≤
          cs.getD ((validIdx cs P L S).getD k 0) 0 ∧
        (rsiO cs P ((validIdx cs P L S).getD (k + 1) 0)).getD 0 <
          (rsiO cs P ((validIdx cs P L S).getD k 0)).getD 0)) := by
  have hk : k < (validIdx cs P L S).length := Nat.lt_of_succ_lt h
  have hv1 : (validIdx cs P L S)[k + 1]? =
      some ((validIdx cs P L S).getD (k + 1) 0) := by
    rw [List.getD_eq_getElem?_getD, List.getElem?_eq_getElem h]
    rfl
  have hv0 : (validIdx cs P L S)[k]? = some ((validIdx cs P L S).getD k 0) := by
    rw [List.getD_eq_getElem?_getD, List.getElem?_eq_getElem hk]
    rfl
  have hmi : (validIdx cs P L S).getD (k + 1) 0 ∈ validIdx cs P L S :=
    List.getElem?_mem hv1
  have hmp : (validIdx cs P L S).getD k 0 ∈ validIdx cs P L S :=
    List.getElem?_mem hv0
  obtain ⟨hiN, hiSup, hiRes, hiMid, hiRsi⟩ := mem_validIdx.mp hmi
  obtain ⟨hpN, hpSup, hpRes, hpMid, hpRsi⟩ := mem_validIdx.mp hmp
  obtain ⟨si, hsi⟩ := Option.isSome_iff_exists.mp hiSup
  obtain ⟨sp, hsp⟩ := Option.isSome_iff_exists.mp hpSup
  obtain ⟨ri, hri⟩ := Option.isSome_iff_exists.mp hiRes
  obtain ⟨rp, hrp⟩ := Option.isSome_iff_exists.mp hpRes
  obtain ⟨oi, hoi⟩ := Option.isSome_iff_exists.mp hiRsi
  obtain ⟨op, hop⟩ := Option.isSome_iff_exists.mp hpRsi
  have hci := closeO_eq_some hiN
  have hcp := closeO_eq_some hpN
  have hshift : shiftRow (validIdx cs P L S) (k + 1) = (validIdx cs P L S)[k]? := by
    unfold shiftRow
    simp
  simp only [Buy_Signal, Sell_Signal, hshift, hv1, hv0, Option.some_bind, hci, hcp,
    hsi, hsp, hri, hrp, hoi, hop, ogt, olt, ole, oge, Option.getD_some,
    Bool.and_eq_true, decide_eq_true_eq, and_assoc]
  exact ⟨trivial, trivial⟩

theorem signal_characterization_witness :
    (1 < (validIdx ([1, 2, 3, 4, 5] : List ℚ) 2 2 1).length) ∧
    (Buy_Signal ([1, 2, 3, 4, 5] : List ℚ) 2 2 1 1 = true ↔
      ((Smooth_Support ([1, 2, 3, 4, 5] : List ℚ) 2 2 1
            ((validIdx ([1, 2, 3, 4, 5] : List ℚ) 2 2 1).getD 1 0)).getD 0 <
          ([1, 2, 3, 4, 5] : List ℚ).getD
            ((validIdx ([1, 2, 3, 4, 5] : List ℚ) 2 2 1).getD 1 0) 0 ∧
        ([1, 2, 3, 4, 5] : List ℚ).getD
            ((validIdx ([1, 2, 3, 4, 5] : List ℚ) 2 2 1).getD 0 0) 0 ≤
          (Smooth_Support ([1, 2, 3, 4, 5] : List ℚ) 2 2 1
            ((validIdx ([1, 2, 3, 4, 5] : List ℚ) 2 2 1).getD 0 0)).getD 0 ∧
        (rsiO ([1, 2, 3, 4, 5] : List ℚ) 2
            ((validIdx ([1, 2, 3, 4, 5] : List ℚ) 2 2 1).getD 0 0)).getD 0 <
          (rsiO ([1, 2, 3, 4, 5] : List ℚ) 2
            ((validIdx ([1, 2, 3, 4, 5] : List ℚ) 2 2 1).getD 1 0)).getD 0)) ∧
    (Sell_Signal ([1, 2, 3, 4, 5] : List ℚ) 2 2 1 1 = true ↔
      (([1, 2, 3, 4, 5] : List ℚ).getD
            ((validIdx ([1, 2, 3, 4, 5] : List ℚ) 2 2 1).getD 1 0) 0 <
          (Smooth_Resistance ([1, 2, 3, 4, 5] : List ℚ) 2 2 1
            ((validIdx ([1, 2, 3, 4, 5] : List ℚ) 2 2 1).getD 1 0)).getD 0 ∧
        (Smooth_Resistance ([1, 2, 3, 4, 5] : List ℚ) 2 2 1
            ((validIdx ([1, 2, 3, 4, 5] : List ℚ) 2 2 1).getD 0 0)).getD 0 ≤
          ([1, 2, 3, 4, 5] : List ℚ).getD
            ((validIdx ([1, 2, 3, 4, 5] : List ℚ) 2 2 1).getD 0 0) 0 ∧
        (rsiO ([1, 2, 3, 4, 5] : List ℚ) 2
            ((validIdx ([1, 2, 3, 4, 5] : List ℚ) 2 2 1).getD 1 0)).getD 0 <
          (rsiO ([1, 2, 3, 4, 5] : List ℚ) 2
            ((validIdx ([1, 2, 3, 4, 5] : List ℚ) 2 2 1).getD 0 0)).getD 0)) :=
  ⟨by decide, signal_characterization [1, 2, 3, 4, 5] 2 2 1 0 (by decide)⟩

end ClaimTheorems

end MyTrader
